import Mathlib

/-!
Verification model of the media-sanitization engine of `src/src/hooks/useLuminaEngine.ts`
(the `useLuminaEngine` hook).  Pure helpers (`getExtension`, `getMimeType`) and the
argument-sequence construction are translated directly; the asynchronous orchestration of
`sanitize` / `applyPrivacyGrain` is embedded as an explicit state-passing function over
an environment that fixes the outcome of each fallible external-engine call (writeFile,
exec, readFile, deleteFile) and the progress events the engine emits during exec.
The `load` single-flight question is modelled as a small-step interleaving semantics of
the load routine's check / init / resume phases.
-/

namespace Lumina

/-- Options of `sanitize` (interface `SanitizeOptions`, all fields optional in TS). -/
structure SanitizeOptions where
  stripMetadata : Option Bool
  deterministicEncoding : Option Bool
  outputFormat : Option String
deriving DecidableEq, Repr

/-- Options of `removePII` (interface `PIIRemovalOptions`). -/
structure PIIRemovalOptions where
  outputFormat : Option String
deriving DecidableEq, Repr

/-- Options of `applyPrivacyGrain` (interface `PrivacyGrainOptions`). -/
structure PrivacyGrainOptions where
  outputFormat : Option String
  stripMetadata : Option Bool
deriving DecidableEq, Repr

/-- The hook's UI state (interface `LuminaEngineState`). -/
structure UiState where
  isLoaded : Bool
  isProcessing : Bool
  progress : Nat
  error : Option String
deriving DecidableEq, Repr

/-- `getExtension` of the source: the match of the regex for a final dot followed by
one or more non-dot characters (returned with the dot), defaulting to ".mp4" when the
regex does not match.  The maximal run of non-dot characters at the end of the name is
`revTail` (reversed); the regex matches exactly when that run is nonempty and is
preceded by a dot, i.e. when it is nonempty and shorter than the whole name. -/
def getExtension (filename : String) : String :=
  let cs := filename.toList
  let revTail := cs.reverse.takeWhile (fun c => c != '.')
  if revTail.length = 0 ∨ revTail.length = cs.length then ".mp4"
  else String.mk ('.' :: revTail.reverse)

/-- The `toLowerCase()` call of `getMimeType`, as a character-wise map. -/
def lowerStr (s : String) : String :=
  String.mk (s.toList.map Char.toLower)

/-- `getMimeType` of the source: lower-case the extension and look it up in the fixed
extension-to-MIME table, falling back to a generic octet-stream type. -/
def getMimeType (extension : String) : String :=
  let e := lowerStr extension
  if e = ".mp4" then "video/mp4"
  else if e = ".webm" then "video/webm"
  else if e = ".mov" then "video/quicktime"
  else if e = ".avi" then "video/x-msvideo"
  else if e = ".mkv" then "video/x-matroska"
  else if e = ".mp3" then "audio/mpeg"
  else if e = ".wav" then "audio/wav"
  else if e = ".ogg" then "audio/ogg"
  else if e = ".png" then "image/png"
  else if e = ".jpg" then "image/jpeg"
  else if e = ".jpeg" then "image/jpeg"
  else if e = ".gif" then "image/gif"
  else if e = ".webp" then "image/webp"
  else "application/octet-stream"

/-- The three bit-exact flag pairs pushed by `sanitize` when `deterministicEncoding`. -/
def bitexactFlags : List String :=
  ["-fflags", "+bitexact", "-flags:v", "+bitexact", "-flags:a", "+bitexact"]

/-- The ffmpeg argument sequence built by `sanitize` (lines 99-111 of the source):
start from `[-i, input]`, push the metadata-erasure pair when `stripMetadata`, push the
three bit-exact pairs when `deterministicEncoding`, and end with `[-y, output]`. -/
def buildSanitizeArgs (inputFileName outputFileName : String)
    (stripMetadata deterministicEncoding : Bool) : List String :=
  ["-i", inputFileName]
    ++ (if stripMetadata then ["-map_metadata", "-1"] else [])
    ++ (if deterministicEncoding then bitexactFlags else [])
    ++ ["-y", outputFileName]

/-- The ffmpeg argument sequence built by `applyPrivacyGrain` (lines 211-218 of the
source): `[-i, input]`, the metadata-erasure pair when `stripMetadata`, then always the
fixed noise filter pair, then `[-y, output]`. -/
def buildGrainArgs (inputFileName outputFileName : String)
    (stripMetadata : Bool) : List String :=
  ["-i", inputFileName]
    ++ (if stripMetadata then ["-map_metadata", "-1"] else [])
    ++ ["-vf", "noise=alls=3:allf=t+u"]
    ++ ["-y", outputFileName]

/-- The staging store: the engine's virtual filesystem as an association list of
named byte blobs. -/
abbrev StagingStore := List (String × List Nat)

/-- `ffmpeg.writeFile`: store bytes under a name, overwriting any previous blob of
that name. -/
def storeWrite (s : StagingStore) (n : String) (b : List Nat) : StagingStore :=
  (n, b) :: s.filter (fun p => p.1 != n)

/-- `ffmpeg.readFile`: the bytes stored under a name, if any. -/
def storeRead (s : StagingStore) (n : String) : Option (List Nat) :=
  (s.find? (fun p => p.1 == n)).map (fun p => p.2)

/-- `ffmpeg.deleteFile`: remove the blob of the given name. -/
def storeDelete (s : StagingStore) (n : String) : StagingStore :=
  s.filter (fun p => p.1 != n)

/-- Whether a blob of the given name is present in the staging store. -/
def storeHas (s : StagingStore) (n : String) : Bool :=
  s.any (fun p => p.1 == n)

/-- A result blob: bytes plus the MIME type derived from the output extension. -/
structure MediaBlob where
  bytes : List Nat
  mimeType : String
deriving DecidableEq, Repr

/-- Environment fixing the outcome of every fallible external-engine call that one
`sanitize` / `applyPrivacyGrain` run awaits, and the progress events (fractions in
[0,1]) the engine emits while `exec` runs.  `execOutput` is the output blob the
transform leaves in the virtual filesystem (`none`: no output produced); `execOk` is
whether `exec` itself resolves (`false`: it rejects). -/
structure RunEnv where
  fileBytes : List Nat
  writeOk : Bool
  progressEvents : List Rat
  execOk : Bool
  execOutput : Option (List Nat)
  deleteInputOk : Bool
  deleteOutputOk : Bool

/-- The observable outcome of one run: the settled promise, the final UI state, the
final staging store, the successive UI states produced by each `setState` call in
order, and the argument sequence handed to `exec` ([] when the run never built one). -/
structure RunOutcome where
  result : Except String MediaBlob
  ui : UiState
  store : StagingStore
  uiTrace : List UiState
  args : List String
deriving Repr

/-- The progress handler registered in `load`: `Math.round(progress * 100)`, i.e.
⌊p·100 + 1/2⌋ computed exactly on the rational p = num/den (den > 0):
⌊(200·num + den) / (2·den)⌋ via floor division. -/
def roundPercent (p : Rat) : Nat :=
  (Int.fdiv (200 * p.num + p.den) (2 * p.den)).toNat

/-- Replay the progress events emitted during `exec`: each event's `setState` writes
the rounded percent into `progress`.  Returns the final UI state and the list of the
intermediate UI states, in order. -/
def applyProgress (ui : UiState) (events : List Rat) : UiState × List UiState :=
  match events with
  | [] => (ui, [])
  | e :: rest =>
      let ui2 := { ui with progress := roundPercent e }
      let done := applyProgress ui2 rest
      (done.1, ui2 :: done.2)

/-- Error message thrown by `sanitize` / `applyPrivacyGrain` when the engine is not
loaded. -/
def notLoadedMsg : String := "FFmpeg not loaded. Call load() first."

/-- Stand-ins for the messages of the Error values the external engine rejects with;
their exact text is opaque to the orchestrator, which only stores and rethrows them. -/
def writeFailedMsg : String := "writeFile failed"

/-- Message of a rejected `exec` call. -/
def execFailedMsg : String := "exec failed"

/-- Message of a rejected `readFile` call (output blob absent). -/
def readFailedMsg : String := "readFile failed"

/-- Message of a rejected `deleteFile` call. -/
def deleteFailedMsg : String := "deleteFile failed"

/-- The `sanitize` operation (source lines 73-133), as explicit state passing.  The
control flow mirrors the source exactly: the not-loaded guard precedes the first
`setState`; the entry `setState` sets `isProcessing := true, progress := 0,
error := none`; staged names are `input<ext>` / `output<ext>`; the input blob is
written, the argument sequence built, `exec` awaited (progress events firing), the
output read, then BOTH deletes run inside the `try`, then the success `setState`;
any rejection jumps to the `catch`, whose `setState` sets `isProcessing := false` and
records the message, and which rethrows.  Each fallible await is resolved by `env`. -/
def sanitizeRun (env : RunEnv) (fileName : String) (options : SanitizeOptions)
    (engineLoaded : Bool) (ui0 : UiState) (st0 : StagingStore) : RunOutcome :=
  let stripMetadata := options.stripMetadata.getD true
  let deterministicEncoding := options.deterministicEncoding.getD true
  if engineLoaded = false then
    ⟨Except.error notLoadedMsg, ui0, st0, [], []⟩
  else
    let ui1 : UiState := { ui0 with isProcessing := true, progress := 0, error := none }
    let inputFileName := "input" ++ getExtension fileName
    let outputExt := (options.outputFormat).getD (getExtension fileName)
    let outputFileName := "output" ++ outputExt
    if env.writeOk = false then
      let uiF := { ui1 with isProcessing := false, error := some writeFailedMsg }
      ⟨Except.error writeFailedMsg, uiF, st0, [ui1, uiF], []⟩
    else
      let st1 := storeWrite st0 inputFileName env.fileBytes
      let args := buildSanitizeArgs inputFileName outputFileName stripMetadata deterministicEncoding
      let prog := applyProgress ui1 env.progressEvents
      let uiP := prog.1
      let st2 := match env.execOutput with
        | some outBytes => storeWrite st1 outputFileName outBytes
        | none => st1
      if env.execOk = false then
        let uiF := { uiP with isProcessing := false, error := some execFailedMsg }
        ⟨Except.error execFailedMsg, uiF, st2, ui1 :: prog.2 ++ [uiF], args⟩
      else
        match storeRead st2 outputFileName with
        | none =>
          let uiF := { uiP with isProcessing := false, error := some readFailedMsg }
          ⟨Except.error readFailedMsg, uiF, st2, ui1 :: prog.2 ++ [uiF], args⟩
        | some data =>
          let blob : MediaBlob := ⟨data, getMimeType outputExt⟩
          if env.deleteInputOk = false then
            let uiF := { uiP with isProcessing := false, error := some deleteFailedMsg }
            ⟨Except.error deleteFailedMsg, uiF, st2, ui1 :: prog.2 ++ [uiF], args⟩
          else
            let st3 := storeDelete st2 inputFileName
            if env.deleteOutputOk = false then
              let uiF := { uiP with isProcessing := false, error := some deleteFailedMsg }
              ⟨Except.error deleteFailedMsg, uiF, st3, ui1 :: prog.2 ++ [uiF], args⟩
            else
              let st4 := storeDelete st3 outputFileName
              let uiS := { uiP with isProcessing := false, progress := 100 }
              ⟨Except.ok blob, uiS, st4, ui1 :: prog.2 ++ [uiS], args⟩

/-- The `applyPrivacyGrain` operation (source lines 192-240): identical orchestration
to `sanitize` except for its options record (no `deterministicEncoding`) and its
argument sequence, which always appends the fixed noise filter. -/
def grainRun (env : RunEnv) (fileName : String) (options : PrivacyGrainOptions)
    (engineLoaded : Bool) (ui0 : UiState) (st0 : StagingStore) : RunOutcome :=
  let stripMetadata := options.stripMetadata.getD true
  if engineLoaded = false then
    ⟨Except.error notLoadedMsg, ui0, st0, [], []⟩
  else
    let ui1 : UiState := { ui0 with isProcessing := true, progress := 0, error := none }
    let inputFileName := "input" ++ getExtension fileName
    let outputExt := (options.outputFormat).getD (getExtension fileName)
    let outputFileName := "output" ++ outputExt
    if env.writeOk = false then
      let uiF := { ui1 with isProcessing := false, error := some writeFailedMsg }
      ⟨Except.error writeFailedMsg, uiF, st0, [ui1, uiF], []⟩
    else
      let st1 := storeWrite st0 inputFileName env.fileBytes
      let args := buildGrainArgs inputFileName outputFileName stripMetadata
      let prog := applyProgress ui1 env.progressEvents
      let uiP := prog.1
      let st2 := match env.execOutput with
        | some outBytes => storeWrite st1 outputFileName outBytes
        | none => st1
      if env.execOk = false then
        let uiF := { uiP with isProcessing := false, error := some execFailedMsg }
        ⟨Except.error execFailedMsg, uiF, st2, ui1 :: prog.2 ++ [uiF], args⟩
      else
        match storeRead st2 outputFileName with
        | none =>
          let uiF := { uiP with isProcessing := false, error := some readFailedMsg }
          ⟨Except.error readFailedMsg, uiF, st2, ui1 :: prog.2 ++ [uiF], args⟩
        | some data =>
          let blob : MediaBlob := ⟨data, getMimeType outputExt⟩
          if env.deleteInputOk = false then
            let uiF := { uiP with isProcessing := false, error := some deleteFailedMsg }
            ⟨Except.error deleteFailedMsg, uiF, st2, ui1 :: prog.2 ++ [uiF], args⟩
          else
            let st3 := storeDelete st2 inputFileName
            if env.deleteOutputOk = false then
              let uiF := { uiP with isProcessing := false, error := some deleteFailedMsg }
              ⟨Except.error deleteFailedMsg, uiF, st3, ui1 :: prog.2 ++ [uiF], args⟩
            else
              let st4 := storeDelete st3 outputFileName
              let uiS := { uiP with isProcessing := false, progress := 100 }
              ⟨Except.ok blob, uiS, st4, ui1 :: prog.2 ++ [uiS], args⟩

/-- `sanitizeForCI` (source lines 139-148): `sanitize` with `stripMetadata` and
`deterministicEncoding` fixed to true and the given output format. -/
def sanitizeForCI (env : RunEnv) (fileName : String) (outputFormat : Option String)
    (engineLoaded : Bool) (ui0 : UiState) (st0 : StagingStore) : RunOutcome :=
  sanitizeRun env fileName ⟨some true, some true, outputFormat⟩ engineLoaded ui0 st0

/-- `removePII` (source lines 167-176): `sanitize` with `stripMetadata` and
`deterministicEncoding` fixed to true and the caller's output format. -/
def removePII (env : RunEnv) (fileName : String) (options : PIIRemovalOptions)
    (engineLoaded : Bool) (ui0 : UiState) (st0 : StagingStore) : RunOutcome :=
  sanitizeRun env fileName ⟨some true, some true, options.outputFormat⟩ engineLoaded ui0 st0

/-- Shared state the concurrent `load` calls touch: `refInst` is `ffmpegRef.current`
(the id of the instance it holds), `loadedInsts` the instances whose `ffmpeg.load`
completed (`.loaded` is true), `nextInst` the id for the next `new FFmpeg()`, and
`initCount` how many times `ffmpeg.load(...)` — an actual engine initialization — was
started. -/
structure LoadWorld where
  refInst : Option Nat
  loadedInsts : List Nat
  nextInst : Nat
  initCount : Nat
deriving DecidableEq, Repr

/-- Where one `load()` call stands: before its loaded-check, suspended awaiting its
own `ffmpeg.load` on a given instance, or returned. -/
inductive LoadPhase
  | ready
  | initing (inst : Nat)
  | finished
deriving DecidableEq, Repr

/-- The code both branches of the check share when it decides to initialize: create a
fresh instance, store it in the ref, and start `ffmpeg.load` on it. -/
def startEngineInit (w : LoadWorld) : LoadWorld × LoadPhase :=
  ({ w with refInst := some w.nextInst, nextInst := w.nextInst + 1,
            initCount := w.initCount + 1 },
   LoadPhase.initing w.nextInst)

/-- One scheduler step of a `load()` call (source lines 36-62).  From `ready` it runs
the guard `if (ffmpegRef.current?.loaded) return` and otherwise creates an instance
and starts its initialization, suspending; from `initing` its awaited `ffmpeg.load`
completes, marking that instance loaded. -/
def loadStep (w : LoadWorld) (ph : LoadPhase) : LoadWorld × LoadPhase :=
  match ph with
  | LoadPhase.ready =>
      match w.refInst with
      | some i =>
          if w.loadedInsts.contains i then (w, LoadPhase.finished)
          else startEngineInit w
      | none => startEngineInit w
  | LoadPhase.initing inst =>
      ({ w with loadedInsts := inst :: w.loadedInsts }, LoadPhase.finished)
  | LoadPhase.finished => (w, LoadPhase.finished)

/-- The world before any `load` call: empty ref, nothing loaded, no initialization
started. -/
def loadWorld0 : LoadWorld := ⟨none, [], 0, 0⟩

/-- Run an interleaving of two concurrent `load()` calls A and B: each schedule entry
says whose pending step runs next (`false` = A, `true` = B). -/
def runSchedule (sched : List Bool) (w : LoadWorld) (pa pb : LoadPhase) :
    LoadWorld × LoadPhase × LoadPhase :=
  match sched with
  | [] => (w, pa, pb)
  | t :: rest =>
      if t then
        let s := loadStep w pb
        runSchedule rest s.1 pa s.2
      else
        let s := loadStep w pa
        runSchedule rest s.1 s.2 pb

/-- Contiguous containment: the token sequence `pat` occurs somewhere inside `xs`. -/
def hasSeq (pat xs : List String) : Prop := ∃ p q, xs = p ++ pat ++ q

/-- An all-succeeding environment: one progress event, transform writes an output. -/
def envAllOk : RunEnv := ⟨[7, 7], true, [mkRat 1 2], true, some [9, 9], true, true⟩

/-- Environment whose `exec` rejects without producing an output blob. -/
def envExecFails : RunEnv := ⟨[7, 7], true, [mkRat 1 2], false, none, true, true⟩

/-- Environment where everything up to the output read succeeds but deleting the
staged input blob fails. -/
def envDeleteInputFails : RunEnv := ⟨[7, 7], true, [], true, some [9, 9], false, true⟩

/-- Environment whose staging write rejects (progress events would exist but exec is
never reached). -/
def envWriteFails : RunEnv := ⟨[7, 7], false, [mkRat 7 10], true, some [9, 9], true, true⟩

/-- Environment where `exec` resolves but leaves no output blob, so the output read
rejects; one progress event (70%) was reported. -/
def envReadFails : RunEnv := ⟨[7, 7], true, [mkRat 7 10], true, none, true, true⟩

/-- Environment where the transform and read succeed (one 70% progress event) but the
staged-input delete rejects. -/
def envDeleteFailsLate : RunEnv := ⟨[7, 7], true, [mkRat 7 10], true, some [9, 9], false, true⟩

/-- An idle, loaded UI state. -/
def uiIdle : UiState := ⟨true, false, 0, none⟩

/-- A state with an operation in flight (isProcessing true, progress 42). -/
def uiBusy : UiState := ⟨true, true, 42, none⟩

/-- An idle state still displaying the message of an earlier fault. -/
def uiStale : UiState := ⟨true, false, 55, some "previous failure"⟩

/-- The percent shown after replaying a list of reported progress values over a
starting percent: the rounding of the last reported value, or the start when none
was reported. -/
def lastPercent (p0 : Nat) : List Rat → Nat
  | [] => p0
  | e :: rest => lastPercent (roundPercent e) rest

end Lumina

namespace Lumina

theorem data_append (s t : String) : (s ++ t).data = s.data ++ t.data := rfl

theorem append_ne_of_head (a e t : String) (c : Char)
    (ha : a.data.head? = some c) (ht : t.data.head? ≠ some c) : a ++ e ≠ t := by
  intro hEq
  apply ht
  rw [← hEq, data_append]
  cases hd : a.data with
  | nil => rw [hd] at ha; exact absurd ha (by simp)
  | cons x xs =>
      rw [hd] at ha
      simpa using ha

theorem inputName_ne (e t : String) (ht : t.data.head? ≠ some 'i') : "input" ++ e ≠ t :=
  append_ne_of_head "input" e t 'i' rfl ht

theorem outputName_ne (e t : String) (ht : t.data.head? ≠ some 'o') : "output" ++ e ≠ t :=
  append_ne_of_head "output" e t 'o' rfl ht

theorem applyProgress_fst_error (ui : UiState) (evs : List Rat) :
    (applyProgress ui evs).1.error = ui.error := by
  induction evs generalizing ui with
  | nil => rfl
  | cons e rest ih => simpa [applyProgress] using ih { ui with progress := roundPercent e }

theorem applyProgress_fst_isProcessing (ui : UiState) (evs : List Rat) :
    (applyProgress ui evs).1.isProcessing = ui.isProcessing := by
  induction evs generalizing ui with
  | nil => rfl
  | cons e rest ih => simpa [applyProgress] using ih { ui with progress := roundPercent e }

theorem applyProgress_fst_isLoaded (ui : UiState) (evs : List Rat) :
    (applyProgress ui evs).1.isLoaded = ui.isLoaded := by
  induction evs generalizing ui with
  | nil => rfl
  | cons e rest ih => simpa [applyProgress] using ih { ui with progress := roundPercent e }

theorem applyProgress_fst_progress (ui : UiState) (evs : List Rat) :
    (applyProgress ui evs).1.progress = lastPercent ui.progress evs := by
  induction evs generalizing ui with
  | nil => rfl
  | cons e rest ih => simpa [applyProgress, lastPercent] using ih { ui with progress := roundPercent e }

theorem storeRead_write_self (s : StagingStore) (n : String) (b : List Nat) :
    storeRead (storeWrite s n b) n = some b := by
  simp [storeRead, storeWrite]

theorem storeHas_delete (s : StagingStore) (n m : String) :
    storeHas (storeDelete s m) n = ((n != m) && storeHas s n) := by
  induction s with
  | nil => simp [storeHas, storeDelete]
  | cons a t ih =>
      by_cases ham : a.1 = m
      · by_cases han : a.1 = n
        · subst han
          simp_all [storeHas, storeDelete, List.filter_cons, List.any_cons, beq_iff_eq,
            bne_iff_ne, beq_eq_decide]
        · simp_all [storeHas, storeDelete, List.filter_cons, List.any_cons, beq_iff_eq,
            bne_iff_ne, beq_eq_decide]
      · by_cases han : a.1 = n
        · subst han
          simp_all [storeHas, storeDelete, List.filter_cons, List.any_cons, beq_iff_eq,
            bne_iff_ne, beq_eq_decide]
        · simp_all [storeHas, storeDelete, List.filter_cons, List.any_cons, beq_iff_eq,
            bne_iff_ne, beq_eq_decide]

theorem hasSeq_mem (pat xs : List String) (a : String) (h : hasSeq pat xs) (ha : a ∈ pat) :
    a ∈ xs := by
  obtain ⟨p, q, rfl⟩ := h
  simp [List.mem_append, ha]

theorem sanitizeRun_ok_clean (env : RunEnv) (fn : String) (opts : SanitizeOptions)
    (ui0 : UiState) (st0 : StagingStore)
    (h : (sanitizeRun env fn opts true ui0 st0).result.isOk = true) :
    storeHas (sanitizeRun env fn opts true ui0 st0).store ("input" ++ getExtension fn) = false
    ∧ storeHas (sanitizeRun env fn opts true ui0 st0).store
        ("output" ++ (opts.outputFormat).getD (getExtension fn)) = false := by
  cases hw : env.writeOk with
  | false => simp [sanitizeRun, hw, Except.isOk, Except.toBool] at h
  | true =>
    cases hx : env.execOk with
    | false =>
      cases ho : env.execOutput <;> simp [sanitizeRun, hw, hx, ho, Except.isOk, Except.toBool] at h
    | true =>
      cases ho : env.execOutput with
      | none =>
        cases hr : storeRead (storeWrite st0 ("input" ++ getExtension fn) env.fileBytes)
            ("output" ++ (opts.outputFormat).getD (getExtension fn)) with
        | none => simp [sanitizeRun, hw, hx, ho, hr, Except.isOk, Except.toBool] at h
        | some data =>
          cases hdi : env.deleteInputOk with
          | false => simp [sanitizeRun, hw, hx, ho, hr, hdi, Except.isOk, Except.toBool] at h
          | true =>
            cases hdo : env.deleteOutputOk with
            | false => simp [sanitizeRun, hw, hx, ho, hr, hdi, hdo, Except.isOk, Except.toBool] at h
            | true =>
              simp [sanitizeRun, hw, hx, ho, hr, hdi, hdo, storeHas_delete,
                bne_self_eq_false]
      | some outBytes =>
        cases hdi : env.deleteInputOk with
        | false =>
          simp [sanitizeRun, hw, hx, ho, storeRead_write_self, hdi, Except.isOk, Except.toBool] at h
        | true =>
          cases hdo : env.deleteOutputOk with
          | false =>
            simp [sanitizeRun, hw, hx, ho, storeRead_write_self, hdi, hdo, Except.isOk, Except.toBool] at h
          | true =>
            simp [sanitizeRun, hw, hx, ho, storeRead_write_self, hdi, hdo, storeHas_delete,
              bne_self_eq_false]

theorem ext_mp4 : getExtension "clip.mp4" = ".mp4" := by decide

theorem ext_default : getExtension "clip" = ".mp4" := by decide

theorem ext_trailing_dot : getExtension "clip." = ".mp4" := by decide

theorem ext_jpg : getExtension "photo.jpg" = ".jpg" := by decide

theorem mime_jpg_test : getMimeType ".jpg" = "image/jpeg" := by decide

theorem mime_upper : getMimeType ".JPG" = "image/jpeg" := by decide

theorem mime_fallback : getMimeType ".xyz" = "application/octet-stream" := by decide

end Lumina

namespace Lumina

theorem grainRun_ok_clean (env : RunEnv) (fn : String) (gopts : PrivacyGrainOptions)
    (ui0 : UiState) (st0 : StagingStore)
    (h : (grainRun env fn gopts true ui0 st0).result.isOk = true) :
    storeHas (grainRun env fn gopts true ui0 st0).store ("input" ++ getExtension fn) = false
    ∧ storeHas (grainRun env fn gopts true ui0 st0).store
        ("output" ++ (gopts.outputFormat).getD (getExtension fn)) = false := by
  cases hw : env.writeOk with
  | false => simp [grainRun, hw, Except.isOk, Except.toBool] at h
  | true =>
    cases hx : env.execOk with
    | false =>
      cases ho : env.execOutput <;> simp [grainRun, hw, hx, ho, Except.isOk, Except.toBool] at h
    | true =>
      cases ho : env.execOutput with
      | none =>
        cases hr : storeRead (storeWrite st0 ("input" ++ getExtension fn) env.fileBytes)
            ("output" ++ (gopts.outputFormat).getD (getExtension fn)) with
        | none => simp [grainRun, hw, hx, ho, hr, Except.isOk, Except.toBool] at h
        | some data =>
          cases hdi : env.deleteInputOk with
          | false => simp [grainRun, hw, hx, ho, hr, hdi, Except.isOk, Except.toBool] at h
          | true =>
            cases hdo : env.deleteOutputOk with
            | false => simp [grainRun, hw, hx, ho, hr, hdi, hdo, Except.isOk, Except.toBool] at h
            | true =>
              simp [grainRun, hw, hx, ho, hr, hdi, hdo, storeHas_delete,
                bne_self_eq_false]
      | some outBytes =>
        cases hdi : env.deleteInputOk with
        | false =>
          simp [grainRun, hw, hx, ho, storeRead_write_self, hdi, Except.isOk, Except.toBool] at h
        | true =>
          cases hdo : env.deleteOutputOk with
          | false =>
            simp [grainRun, hw, hx, ho, storeRead_write_self, hdi, hdo, Except.isOk,
              Except.toBool] at h
          | true =>
            simp [grainRun, hw, hx, ho, storeRead_write_self, hdi, hdo, storeHas_delete,
              bne_self_eq_false]

theorem sanitizeRun_trace_head (env : RunEnv) (fn : String) (opts : SanitizeOptions)
    (ui0 : UiState) (st0 : StagingStore) :
    (sanitizeRun env fn opts true ui0 st0).uiTrace.head?
      = some { ui0 with isProcessing := true, progress := 0, error := none } := by
  simp only [sanitizeRun]
  repeat' split
  all_goals first
  | rfl
  | simp_all

theorem grainRun_trace_head (env : RunEnv) (fn : String) (gopts : PrivacyGrainOptions)
    (ui0 : UiState) (st0 : StagingStore) :
    (grainRun env fn gopts true ui0 st0).uiTrace.head?
      = some { ui0 with isProcessing := true, progress := 0, error := none } := by
  simp only [grainRun]
  repeat' split
  all_goals first
  | rfl
  | simp_all

theorem sanitizeRun_status (env : RunEnv) (fn : String) (opts : SanitizeOptions)
    (ui0 : UiState) (st0 : StagingStore) :
    (sanitizeRun env fn opts true ui0 st0).ui.isProcessing = false
    ∧ (∀ b, (sanitizeRun env fn opts true ui0 st0).result = Except.ok b →
        (sanitizeRun env fn opts true ui0 st0).ui.progress = 100
        ∧ (sanitizeRun env fn opts true ui0 st0).ui.error = none)
    ∧ (∀ m, (sanitizeRun env fn opts true ui0 st0).result = Except.error m →
        (sanitizeRun env fn opts true ui0 st0).ui.error = some m) := by
  refine ⟨?_, ?_, ?_⟩ <;> simp only [sanitizeRun]
  all_goals repeat' split
  all_goals intros
  all_goals first
  | rfl
  | simp_all [applyProgress_fst_isProcessing, applyProgress_fst_error]

theorem grainRun_status (env : RunEnv) (fn : String) (gopts : PrivacyGrainOptions)
    (ui0 : UiState) (st0 : StagingStore) :
    (grainRun env fn gopts true ui0 st0).ui.isProcessing = false
    ∧ (∀ b, (grainRun env fn gopts true ui0 st0).result = Except.ok b →
        (grainRun env fn gopts true ui0 st0).ui.progress = 100
        ∧ (grainRun env fn gopts true ui0 st0).ui.error = none)
    ∧ (∀ m, (grainRun env fn gopts true ui0 st0).result = Except.error m →
        (grainRun env fn gopts true ui0 st0).ui.error = some m) := by
  refine ⟨?_, ?_, ?_⟩ <;> simp only [grainRun]
  all_goals repeat' split
  all_goals intros
  all_goals first
  | rfl
  | simp_all [applyProgress_fst_isProcessing, applyProgress_fst_error]

theorem sanitizeRun_fail_progress (env : RunEnv) (fn : String) (opts : SanitizeOptions)
    (ui0 : UiState) (st0 : StagingStore) (m : String)
    (hm : (sanitizeRun env fn opts true ui0 st0).result = Except.error m) :
    (sanitizeRun env fn opts true ui0 st0).ui.progress
      = (if env.writeOk = true then lastPercent 0 env.progressEvents else 0) := by
  cases hw : env.writeOk with
  | false => simp [sanitizeRun, hw]
  | true =>
    cases hx : env.execOk with
    | false =>
      cases ho : env.execOutput <;>
        simp [sanitizeRun, hw, hx, ho, applyProgress_fst_progress]
    | true =>
      cases ho : env.execOutput with
      | none =>
        cases hr : storeRead (storeWrite st0 ("input" ++ getExtension fn) env.fileBytes)
            ("output" ++ (opts.outputFormat).getD (getExtension fn)) with
        | none => simp [sanitizeRun, hw, hx, ho, hr, applyProgress_fst_progress]
        | some data =>
          cases hdi : env.deleteInputOk with
          | false => simp [sanitizeRun, hw, hx, ho, hr, hdi, applyProgress_fst_progress]
          | true =>
            cases hdo : env.deleteOutputOk with
            | false =>
              simp [sanitizeRun, hw, hx, ho, hr, hdi, hdo, applyProgress_fst_progress]
            | true => simp [sanitizeRun, hw, hx, ho, hr, hdi, hdo] at hm
      | some outBytes =>
        cases hdi : env.deleteInputOk with
        | false =>
          simp [sanitizeRun, hw, hx, ho, storeRead_write_self, hdi,
            applyProgress_fst_progress]
        | true =>
          cases hdo : env.deleteOutputOk with
          | false =>
            simp [sanitizeRun, hw, hx, ho, storeRead_write_self, hdi, hdo,
              applyProgress_fst_progress]
          | true =>
            simp [sanitizeRun, hw, hx, ho, storeRead_write_self, hdi, hdo] at hm

theorem grainRun_fail_progress (env : RunEnv) (fn : String) (gopts : PrivacyGrainOptions)
    (ui0 : UiState) (st0 : StagingStore) (m : String)
    (hm : (grainRun env fn gopts true ui0 st0).result = Except.error m) :
    (grainRun env fn gopts true ui0 st0).ui.progress
      = (if env.writeOk = true then lastPercent 0 env.progressEvents else 0) := by
  cases hw : env.writeOk with
  | false => simp [grainRun, hw]
  | true =>
    cases hx : env.execOk with
    | false =>
      cases ho : env.execOutput <;>
        simp [grainRun, hw, hx, ho, applyProgress_fst_progress]
    | true =>
      cases ho : env.execOutput with
      | none =>
        cases hr : storeRead (storeWrite st0 ("input" ++ getExtension fn) env.fileBytes)
            ("output" ++ (gopts.outputFormat).getD (getExtension fn)) with
        | none => simp [grainRun, hw, hx, ho, hr, applyProgress_fst_progress]
        | some data =>
          cases hdi : env.deleteInputOk with
          | false => simp [grainRun, hw, hx, ho, hr, hdi, applyProgress_fst_progress]
          | true =>
            cases hdo : env.deleteOutputOk with
            | false =>
              simp [grainRun, hw, hx, ho, hr, hdi, hdo, applyProgress_fst_progress]
            | true => simp [grainRun, hw, hx, ho, hr, hdi, hdo] at hm
      | some outBytes =>
        cases hdi : env.deleteInputOk with
        | false =>
          simp [grainRun, hw, hx, ho, storeRead_write_self, hdi,
            applyProgress_fst_progress]
        | true =>
          cases hdo : env.deleteOutputOk with
          | false =>
            simp [grainRun, hw, hx, ho, storeRead_write_self, hdi, hdo,
              applyProgress_fst_progress]
          | true =>
            simp [grainRun, hw, hx, ho, storeRead_write_self, hdi, hdo] at hm

end Lumina

namespace Lumina

/-- C1 counterexample: with the engine loaded, a `sanitize` run whose `exec` call
rejects resolves with an error while the staged input blob `input.mp4` is still in the
staging store — cleanup does not run on the failure path, so the claim that neither
staged blob remains after any resolved operation is false. -/
theorem c1_counterexample :
    (sanitizeRun envExecFails "clip.mp4" ⟨none, none, none⟩ true uiIdle []).result
        = Except.error execFailedMsg
    ∧ storeHas (sanitizeRun envExecFails "clip.mp4" ⟨none, none, none⟩ true uiIdle []).store
        "input.mp4" = true :=
  ⟨rfl, by decide⟩

/-- C1 amended: cleanup of the staged input and output blobs is guaranteed on the
success path only: whenever a `sanitize` or `applyPrivacyGrain` run resolves with a
result blob, neither the operation's staged input name nor its staged output name
remains in the staging store; a run that fails leaves its already written staged
blobs behind. -/
theorem c1_amended_cleanup_on_success (env : RunEnv) (fileName : String)
    (opts : SanitizeOptions) (gopts : PrivacyGrainOptions) (ui0 : UiState)
    (st0 : StagingStore) :
    ((sanitizeRun env fileName opts true ui0 st0).result.isOk = true →
      storeHas (sanitizeRun env fileName opts true ui0 st0).store
          ("input" ++ getExtension fileName) = false
      ∧ storeHas (sanitizeRun env fileName opts true ui0 st0).store
          ("output" ++ (opts.outputFormat).getD (getExtension fileName)) = false)
    ∧ ((grainRun env fileName gopts true ui0 st0).result.isOk = true →
      storeHas (grainRun env fileName gopts true ui0 st0).store
          ("input" ++ getExtension fileName) = false
      ∧ storeHas (grainRun env fileName gopts true ui0 st0).store
          ("output" ++ (gopts.outputFormat).getD (getExtension fileName)) = false) :=
  ⟨sanitizeRun_ok_clean env fileName opts ui0 st0,
   grainRun_ok_clean env fileName gopts ui0 st0⟩

/-- C1 witness: at the all-success environment both runs resolve successfully and
leave no staged blob of their input/output names behind. -/
theorem c1_witness :
    storeHas (sanitizeRun envAllOk "clip.mp4" ⟨none, none, none⟩ true uiIdle []).store
        "input.mp4" = false
    ∧ storeHas (grainRun envAllOk "clip.mp4" ⟨none, none⟩ true uiIdle []).store
        "output.mp4" = false :=
  ⟨((c1_amended_cleanup_on_success envAllOk "clip.mp4" ⟨none, none, none⟩ ⟨none, none⟩
      uiIdle []).1 (by decide)).1,
   ((c1_amended_cleanup_on_success envAllOk "clip.mp4" ⟨none, none, none⟩ ⟨none, none⟩
      uiIdle []).2 (by decide)).2⟩

/-- C2 counterexample: a `sanitize` call made while `isProcessing` is already true
(progress 42) is not rejected with a Busy fault: it resolves with the result blob and
its very first `setState` resets `progress` to 0 — the claim that such a call fails
and leaves `progressPercent` untouched is false. -/
theorem c2_counterexample :
    (sanitizeRun envAllOk "clip.mp4" ⟨none, none, none⟩ true uiBusy []).result
        = Except.ok ⟨[9, 9], "video/mp4"⟩
    ∧ (sanitizeRun envAllOk "clip.mp4" ⟨none, none, none⟩ true uiBusy []).uiTrace.head?
        = some ⟨true, true, 0, none⟩ :=
  ⟨rfl, rfl⟩

/-- C2 amended: there is no busy guard at all: a run started while `isProcessing` is
true behaves exactly as one started while idle — same result, same final state, same
staged blob names — and its entry `setState` overwrites `progressPercent` with 0 and
`error` with none.  (Both staged names are again `input<ext>`/`output<ext>`, so the
second call reuses the in-flight operation's staged blob names.) -/
theorem c2_amended_no_busy_guard (env : RunEnv) (fileName : String)
    (opts : SanitizeOptions) (gopts : PrivacyGrainOptions) (ui0 : UiState)
    (st0 : StagingStore) :
    sanitizeRun env fileName opts true ui0 st0
        = sanitizeRun env fileName opts true { ui0 with isProcessing := false } st0
    ∧ grainRun env fileName gopts true ui0 st0
        = grainRun env fileName gopts true { ui0 with isProcessing := false } st0
    ∧ (sanitizeRun env fileName opts true ui0 st0).uiTrace.head?
        = some { ui0 with isProcessing := true, progress := 0, error := none }
    ∧ (grainRun env fileName gopts true ui0 st0).uiTrace.head?
        = some { ui0 with isProcessing := true, progress := 0, error := none } :=
  ⟨rfl, rfl, sanitizeRun_trace_head env fileName opts ui0 st0,
   grainRun_trace_head env fileName gopts ui0 st0⟩

/-- C3 counterexample: in a run where the transform succeeded and the output blob was
read back, a failure of the staged-input delete makes the whole operation reject with
the delete error instead of returning the result blob — staging-delete failures are
propagated, so the claim is false. -/
theorem c3_counterexample :
    (sanitizeRun envDeleteInputFails "clip.mp4" ⟨none, none, none⟩ true uiIdle []).result
        = Except.error deleteFailedMsg
    ∧ (sanitizeRun envDeleteInputFails "clip.mp4" ⟨none, none, none⟩ true uiIdle []).ui.error
        = some deleteFailedMsg :=
  ⟨rfl, rfl⟩

/-- C3 amended: both staged-delete calls run inside the `try`, so a delete failure
during cleanup is caught like any other fault and propagated: even when write, exec
and the output read all succeeded, the operation rejects with the delete error (for
`sanitize` and `applyPrivacyGrain` alike, for either delete call). -/
theorem c3_amended_delete_failure_propagates (env : RunEnv) (fileName : String)
    (opts : SanitizeOptions) (gopts : PrivacyGrainOptions) (ui0 : UiState)
    (st0 : StagingStore) (bs : List Nat) (hw : env.writeOk = true)
    (hx : env.execOk = true) (ho : env.execOutput = some bs) :
    (env.deleteInputOk = false →
      (sanitizeRun env fileName opts true ui0 st0).result = Except.error deleteFailedMsg
      ∧ (grainRun env fileName gopts true ui0 st0).result = Except.error deleteFailedMsg)
    ∧ (env.deleteInputOk = true → env.deleteOutputOk = false →
      (sanitizeRun env fileName opts true ui0 st0).result = Except.error deleteFailedMsg
      ∧ (grainRun env fileName gopts true ui0 st0).result = Except.error deleteFailedMsg) := by
  constructor
  · intro hdi
    constructor
    · simp [sanitizeRun, hw, hx, ho, hdi, storeRead_write_self]
    · simp [grainRun, hw, hx, ho, hdi, storeRead_write_self]
  · intro hdi hdo
    constructor
    · simp [sanitizeRun, hw, hx, ho, hdi, hdo, storeRead_write_self]
    · simp [grainRun, hw, hx, ho, hdi, hdo, storeRead_write_self]

/-- C3 witness: the amended statement at the concrete environment where only the
staged-input delete fails. -/
theorem c3_witness :
    (sanitizeRun envDeleteInputFails "a.mp4" ⟨none, none, none⟩ true uiIdle []).result
        = Except.error deleteFailedMsg
    ∧ (grainRun envDeleteInputFails "a.mp4" ⟨none, none⟩ true uiIdle []).result
        = Except.error deleteFailedMsg :=
  (c3_amended_delete_failure_propagates envDeleteInputFails "a.mp4" ⟨none, none, none⟩
      ⟨none, none⟩ uiIdle [] [9, 9] rfl rfl rfl).1 rfl

end Lumina

namespace Lumina

/-- C6: for every file, environment, starting state and output-format choice,
`removePII file {outputFormat := f}` and `sanitizeForCI file f` invoke `sanitize`
with the identical fixed bundle {stripMetadata := true, deterministicEncoding := true,
outputFormat := f}; the whole observable outcome (result, state, store, trace and
argument sequence) is identical, so the two operations differ in name only. -/
theorem c6_removePII_eq_sanitizeForCI (env : RunEnv) (fileName : String)
    (f : Option String) (engineLoaded : Bool) (ui0 : UiState) (st0 : StagingStore) :
    removePII env fileName ⟨f⟩ engineLoaded ui0 st0
        = sanitizeForCI env fileName f engineLoaded ui0 st0
    ∧ removePII env fileName ⟨f⟩ engineLoaded ui0 st0
        = sanitizeRun env fileName ⟨some true, some true, f⟩ engineLoaded ui0 st0 :=
  ⟨rfl, rfl⟩

/-- C7: a run invoked while the engine is not loaded fails immediately with the
not-loaded fault, before any staging I/O: the store is untouched, no `setState` ran
(empty trace, so isProcessing / progressPercent / error are all unchanged), and no
argument sequence was built — for `sanitize` and `applyPrivacyGrain` alike. -/
theorem c7_not_loaded_rejected_without_io (env : RunEnv) (fileName : String)
    (opts : SanitizeOptions) (gopts : PrivacyGrainOptions) (ui0 : UiState)
    (st0 : StagingStore) :
    sanitizeRun env fileName opts false ui0 st0
        = ⟨Except.error notLoadedMsg, ui0, st0, [], []⟩
    ∧ grainRun env fileName gopts false ui0 st0
        = ⟨Except.error notLoadedMsg, ui0, st0, [], []⟩ :=
  ⟨rfl, rfl⟩

/-- C8 counterexample: starting from a state whose `error` still shows a previous
fault's message, the entry `setState` of the NEXT run resets `error` to none even
though that run then fails — so it is not true that only a successful operation
resets the error field to null. -/
theorem c8_counterexample :
    (sanitizeRun envExecFails "photo.jpg" ⟨none, none, none⟩ true uiStale []).uiTrace.head?
        = some ⟨true, true, 0, none⟩
    ∧ (sanitizeRun envExecFails "photo.jpg" ⟨none, none, none⟩ true uiStale []).result
        = Except.error execFailedMsg :=
  ⟨rfl, rfl⟩

/-- C8 amended: the error field is reset to none at the START of every run (successful
or not) by the entry `setState`; afterwards, on success the final state has
`isProcessing = false`, `progressPercent = 100` and `error = none`, and on EVERY
failure it has `isProcessing = false`, `error` holding the fault's message, and
`progressPercent` still at the value last written to it: the last reported (rounded)
progress value once the input write succeeded (exec, read or delete failures), or the
entry value 0 when the failure precedes exec (write failure, no event fired yet).
Stated for `sanitize` and `applyPrivacyGrain` alike. -/
theorem c8_amended_status_protocol (env : RunEnv) (fileName : String)
    (opts : SanitizeOptions) (gopts : PrivacyGrainOptions) (ui0 : UiState)
    (st0 : StagingStore) :
    ((sanitizeRun env fileName opts true ui0 st0).uiTrace.head?
        = some { ui0 with isProcessing := true, progress := 0, error := none })
    ∧ (sanitizeRun env fileName opts true ui0 st0).ui.isProcessing = false
    ∧ (∀ b, (sanitizeRun env fileName opts true ui0 st0).result = Except.ok b →
        (sanitizeRun env fileName opts true ui0 st0).ui.progress = 100
        ∧ (sanitizeRun env fileName opts true ui0 st0).ui.error = none)
    ∧ (∀ m, (sanitizeRun env fileName opts true ui0 st0).result = Except.error m →
        (sanitizeRun env fileName opts true ui0 st0).ui.error = some m)
    ∧ (∀ m, (sanitizeRun env fileName opts true ui0 st0).result = Except.error m →
        (sanitizeRun env fileName opts true ui0 st0).ui.progress
          = (if env.writeOk = true then lastPercent 0 env.progressEvents else 0))
    ∧ ((grainRun env fileName gopts true ui0 st0).uiTrace.head?
        = some { ui0 with isProcessing := true, progress := 0, error := none })
    ∧ (grainRun env fileName gopts true ui0 st0).ui.isProcessing = false
    ∧ (∀ b, (grainRun env fileName gopts true ui0 st0).result = Except.ok b →
        (grainRun env fileName gopts true ui0 st0).ui.progress = 100
        ∧ (grainRun env fileName gopts true ui0 st0).ui.error = none)
    ∧ (∀ m, (grainRun env fileName gopts true ui0 st0).result = Except.error m →
        (grainRun env fileName gopts true ui0 st0).ui.error = some m)
    ∧ (∀ m, (grainRun env fileName gopts true ui0 st0).result = Except.error m →
        (grainRun env fileName gopts true ui0 st0).ui.progress
          = (if env.writeOk = true then lastPercent 0 env.progressEvents else 0)) :=
  ⟨sanitizeRun_trace_head env fileName opts ui0 st0,
   (sanitizeRun_status env fileName opts ui0 st0).1,
   (sanitizeRun_status env fileName opts ui0 st0).2.1,
   (sanitizeRun_status env fileName opts ui0 st0).2.2,
   fun m hm => sanitizeRun_fail_progress env fileName opts ui0 st0 m hm,
   grainRun_trace_head env fileName gopts ui0 st0,
   (grainRun_status env fileName gopts ui0 st0).1,
   (grainRun_status env fileName gopts ui0 st0).2.1,
   (grainRun_status env fileName gopts ui0 st0).2.2,
   fun m hm => grainRun_fail_progress env fileName gopts ui0 st0 m hm⟩

/-- C8 witness: the amended statement applied at concrete environments — a successful
run ends at progress 100 with no error; an exec rejection retains the last reported
rounded progress (50) and records the message; a read failure and a delete failure
retain the last reported value too (70); a write failure retains the entry value 0. -/
theorem c8_witness :
    (sanitizeRun envAllOk "clip.mp4" ⟨none, none, none⟩ true uiStale []).ui.progress = 100
    ∧ (sanitizeRun envAllOk "clip.mp4" ⟨none, none, none⟩ true uiStale []).ui.error = none
    ∧ (sanitizeRun envExecFails "clip.mp4" ⟨none, none, none⟩ true uiStale []).ui.error
        = some execFailedMsg
    ∧ (sanitizeRun envExecFails "clip.mp4" ⟨none, none, none⟩ true uiStale []).ui.progress
        = 50
    ∧ (sanitizeRun envReadFails "clip.mp4" ⟨none, none, none⟩ true uiStale []).ui.error
        = some readFailedMsg
    ∧ (sanitizeRun envReadFails "clip.mp4" ⟨none, none, none⟩ true uiStale []).ui.progress
        = 70
    ∧ (grainRun envDeleteFailsLate "clip.mp4" ⟨none, none⟩ true uiStale []).ui.progress
        = 70
    ∧ (sanitizeRun envWriteFails "clip.mp4" ⟨none, none, none⟩ true uiStale []).ui.progress
        = 0 :=
  ⟨((c8_amended_status_protocol envAllOk "clip.mp4" ⟨none, none, none⟩ ⟨none, none⟩
      uiStale []).2.2.1 ⟨[9, 9], "video/mp4"⟩ rfl).1,
   ((c8_amended_status_protocol envAllOk "clip.mp4" ⟨none, none, none⟩ ⟨none, none⟩
      uiStale []).2.2.1 ⟨[9, 9], "video/mp4"⟩ rfl).2,
   (c8_amended_status_protocol envExecFails "clip.mp4" ⟨none, none, none⟩ ⟨none, none⟩
      uiStale []).2.2.2.1 execFailedMsg rfl,
   by
    rw [(c8_amended_status_protocol envExecFails "clip.mp4" ⟨none, none, none⟩
      ⟨none, none⟩ uiStale []).2.2.2.2.1 execFailedMsg rfl]
    decide,
   (c8_amended_status_protocol envReadFails "clip.mp4" ⟨none, none, none⟩ ⟨none, none⟩
      uiStale []).2.2.2.1 readFailedMsg rfl,
   by
    rw [(c8_amended_status_protocol envReadFails "clip.mp4" ⟨none, none, none⟩
      ⟨none, none⟩ uiStale []).2.2.2.2.1 readFailedMsg rfl]
    decide,
   by
    rw [(c8_amended_status_protocol envDeleteFailsLate "clip.mp4" ⟨none, none, none⟩
      ⟨none, none⟩ uiStale []).2.2.2.2.2.2.2.2.2 deleteFailedMsg rfl]
    decide,
   by
    rw [(c8_amended_status_protocol envWriteFails "clip.mp4" ⟨none, none, none⟩
      ⟨none, none⟩ uiStale []).2.2.2.2.1 writeFailedMsg rfl]
    decide⟩

/-- C9 counterexample: in the interleaving where both `load()` calls run their
loaded-check before either initialization resolves, the world ends with TWO engine
initializations started, not one — the single-flight claim is false (both calls do
complete). -/
theorem c9_counterexample :
    (runSchedule [false, true, false, true] loadWorld0 LoadPhase.ready
        LoadPhase.ready).1.initCount ≠ 1
    ∧ (runSchedule [false, true, false, true] loadWorld0 LoadPhase.ready
        LoadPhase.ready).2.1 = LoadPhase.finished
    ∧ (runSchedule [false, true, false, true] loadWorld0 LoadPhase.ready
        LoadPhase.ready).2.2 = LoadPhase.finished := by
  decide

/-- C9 amended: `load` has no single-flight guard: when two concurrent calls both
pass the loaded-check before either initialization resolves, each creates and
initializes its own engine instance (two initializations), the second instance
overwrites the shared ref, both instances end up loaded, and both callers return. -/
theorem c9_amended_double_initialization :
    (runSchedule [false, true, false, true] loadWorld0 LoadPhase.ready
        LoadPhase.ready).1.initCount = 2
    ∧ (runSchedule [false, true, false, true] loadWorld0 LoadPhase.ready
        LoadPhase.ready).1.refInst = some 1
    ∧ (runSchedule [false, true, false, true] loadWorld0 LoadPhase.ready
        LoadPhase.ready).1.loadedInsts.contains 0 = true
    ∧ (runSchedule [false, true, false, true] loadWorld0 LoadPhase.ready
        LoadPhase.ready).1.loadedInsts.contains 1 = true
    ∧ (runSchedule [false, true, false, true] loadWorld0 LoadPhase.ready
        LoadPhase.ready).2.1 = LoadPhase.finished
    ∧ (runSchedule [false, true, false, true] loadWorld0 LoadPhase.ready
        LoadPhase.ready).2.2 = LoadPhase.finished := by
  decide

/-- C10: `sanitize` defaults both `stripMetadata` and `deterministicEncoding` to true:
a bare `sanitize(file)` call (empty options) has the identical outcome — including the
built argument sequence — as `sanitizeForCI(file)`, and passing only
`{stripMetadata := true}` behaves identically to passing both flags as true. -/
theorem c10_option_defaults (env : RunEnv) (fileName : String) (engineLoaded : Bool)
    (ui0 : UiState) (st0 : StagingStore) :
    sanitizeRun env fileName ⟨none, none, none⟩ engineLoaded ui0 st0
        = sanitizeForCI env fileName none engineLoaded ui0 st0
    ∧ sanitizeRun env fileName ⟨some true, none, none⟩ engineLoaded ui0 st0
        = sanitizeRun env fileName ⟨some true, some true, none⟩ engineLoaded ui0 st0 :=
  ⟨rfl, rfl⟩

end Lumina

namespace Lumina

/-- C4: for every sanitize call (any source file name, any output-format override and
any resolved flag values) the built sequence begins with `[-i, input<ext>]`; it
contains the metadata-erasure token exactly once when `stripMetadata` and never
otherwise, positioned immediately after the input reference (hence before any
encoding flags); it contains the three bit-exact flag pairs, in order, exactly when
`deterministicEncoding`; and it ends with `[-y, output<ext>]`.  In particular for
{stripMetadata := true, deterministicEncoding := false} on a .jpg input the sequence
is exactly `[-i, input.jpg, -map_metadata, -1, -y, output.jpg]` and the MIME type of
.jpg is image/jpeg. -/
theorem c4_sanitize_argument_sequence (fileName : String) (oFmt : Option String)
    (s d : Bool) :
    (buildSanitizeArgs ("input" ++ getExtension fileName)
        ("output" ++ oFmt.getD (getExtension fileName)) s d).take 2
      = ["-i", "input" ++ getExtension fileName]
    ∧ (buildSanitizeArgs ("input" ++ getExtension fileName)
        ("output" ++ oFmt.getD (getExtension fileName)) s d).count "-map_metadata"
      = (if s then 1 else 0)
    ∧ (s = true →
      (buildSanitizeArgs ("input" ++ getExtension fileName)
          ("output" ++ oFmt.getD (getExtension fileName)) s d).take 4
        = ["-i", "input" ++ getExtension fileName, "-map_metadata", "-1"])
    ∧ (hasSeq bitexactFlags
        (buildSanitizeArgs ("input" ++ getExtension fileName)
          ("output" ++ oFmt.getD (getExtension fileName)) s d) ↔ d = true)
    ∧ (∃ p, buildSanitizeArgs ("input" ++ getExtension fileName)
          ("output" ++ oFmt.getD (getExtension fileName)) s d
        = p ++ ["-y", "output" ++ oFmt.getD (getExtension fileName)])
    ∧ buildSanitizeArgs "input.jpg" "output.jpg" true false
        = ["-i", "input.jpg", "-map_metadata", "-1", "-y", "output.jpg"]
    ∧ getMimeType ".jpg" = "image/jpeg" := by
  have h1 : ("input" ++ getExtension fileName) ≠ "-map_metadata" :=
    inputName_ne _ _ (by decide)
  have h2 : ("output" ++ oFmt.getD (getExtension fileName)) ≠ "-map_metadata" :=
    outputName_ne _ _ (by decide)
  have h3 : ¬ ("-fflags" = "input" ++ getExtension fileName) :=
    fun hEq => inputName_ne _ _ (by decide) hEq.symm
  have h4 : ¬ ("-fflags" = "output" ++ oFmt.getD (getExtension fileName)) :=
    fun hEq => outputName_ne _ _ (by decide) hEq.symm
  refine ⟨?_, ?_, ?_, ?_, ?_, ?_, ?_⟩
  · cases s <;> cases d <;> rfl
  · cases s <;> cases d <;>
      simp [buildSanitizeArgs, bitexactFlags, List.count_append, List.count_cons,
        beq_eq_decide, h1, h2]
  · intro hs
    subst hs
    cases d <;> rfl
  · constructor
    · intro h
      cases hd : d with
      | true => rfl
      | false =>
        exfalso
        have hmem : "-fflags" ∈ buildSanitizeArgs ("input" ++ getExtension fileName)
            ("output" ++ oFmt.getD (getExtension fileName)) s d :=
          hasSeq_mem _ _ _ h (by decide)
        cases s <;> simp_all [buildSanitizeArgs, List.mem_append, List.mem_cons]
    · intro hd
      subst hd
      refine ⟨["-i", "input" ++ getExtension fileName]
          ++ (if s then ["-map_metadata", "-1"] else []),
        ["-y", "output" ++ oFmt.getD (getExtension fileName)], ?_⟩
      simp [buildSanitizeArgs, List.append_assoc]
  · exact ⟨["-i", "input" ++ getExtension fileName]
        ++ (if s then ["-map_metadata", "-1"] else [])
        ++ (if d then bitexactFlags else []),
      by simp [buildSanitizeArgs, List.append_assoc]⟩
  · rfl
  · rfl

/-- C4 witness: the claim's properties applied at a concrete .jpg input with
stripMetadata true and deterministicEncoding true / false. -/
theorem c4_witness :
    (buildSanitizeArgs "input.jpg" "output.jpg" true true).take 4
        = ["-i", "input.jpg", "-map_metadata", "-1"]
    ∧ hasSeq bitexactFlags (buildSanitizeArgs "input.jpg" "output.jpg" true true)
    ∧ ¬ hasSeq bitexactFlags (buildSanitizeArgs "input.jpg" "output.jpg" true false) :=
  ⟨(c4_sanitize_argument_sequence "a.jpg" none true true).2.2.1 rfl,
   ((c4_sanitize_argument_sequence "a.jpg" none true true).2.2.2.1).mpr rfl,
   fun h => by
    have := ((c4_sanitize_argument_sequence "a.jpg" none true false).2.2.2.1).mp h
    simp at this⟩

end Lumina

namespace Lumina

/-- C5: for every applyPrivacyGrain call — any file name, output-format override and
stripMetadata choice — the built sequence contains none of the three bit-exact flag
tokens (so none of the three flag pairs), and it contains the fixed, non-configurable
noise-filter directive `[-vf, noise=alls=3:allf=t+u]` with the `-vf` token occurring
exactly once. -/
theorem c5_grain_argument_sequence (fileName : String) (oFmt : Option String)
    (sm : Bool) :
    ¬ ("-fflags" ∈ buildGrainArgs ("input" ++ getExtension fileName)
        ("output" ++ oFmt.getD (getExtension fileName)) sm)
    ∧ ¬ ("-flags:v" ∈ buildGrainArgs ("input" ++ getExtension fileName)
        ("output" ++ oFmt.getD (getExtension fileName)) sm)
    ∧ ¬ ("-flags:a" ∈ buildGrainArgs ("input" ++ getExtension fileName)
        ("output" ++ oFmt.getD (getExtension fileName)) sm)
    ∧ (buildGrainArgs ("input" ++ getExtension fileName)
        ("output" ++ oFmt.getD (getExtension fileName)) sm).count "-vf" = 1
    ∧ hasSeq ["-vf", "noise=alls=3:allf=t+u"]
        (buildGrainArgs ("input" ++ getExtension fileName)
          ("output" ++ oFmt.getD (getExtension fileName)) sm) := by
  have h3 : ¬ ("-fflags" = "input" ++ getExtension fileName) :=
    fun hEq => inputName_ne _ _ (by decide) hEq.symm
  have h4 : ¬ ("-fflags" = "output" ++ oFmt.getD (getExtension fileName)) :=
    fun hEq => outputName_ne _ _ (by decide) hEq.symm
  have h5 : ¬ ("-flags:v" = "input" ++ getExtension fileName) :=
    fun hEq => inputName_ne _ _ (by decide) hEq.symm
  have h6 : ¬ ("-flags:v" = "output" ++ oFmt.getD (getExtension fileName)) :=
    fun hEq => outputName_ne _ _ (by decide) hEq.symm
  have h7 : ¬ ("-flags:a" = "input" ++ getExtension fileName) :=
    fun hEq => inputName_ne _ _ (by decide) hEq.symm
  have h8 : ¬ ("-flags:a" = "output" ++ oFmt.getD (getExtension fileName)) :=
    fun hEq => outputName_ne _ _ (by decide) hEq.symm
  have h9 : ("input" ++ getExtension fileName) ≠ "-vf" :=
    inputName_ne _ _ (by decide)
  have h10 : ("output" ++ oFmt.getD (getExtension fileName)) ≠ "-vf" :=
    outputName_ne _ _ (by decide)
  refine ⟨?_, ?_, ?_, ?_, ?_⟩
  · intro hmem
    cases sm <;> simp_all [buildGrainArgs, List.mem_append, List.mem_cons]
  · intro hmem
    cases sm <;> simp_all [buildGrainArgs, List.mem_append, List.mem_cons]
  · intro hmem
    cases sm <;> simp_all [buildGrainArgs, List.mem_append, List.mem_cons]
  · cases sm <;>
      simp [buildGrainArgs, List.count_append, List.count_cons, beq_eq_decide, h9, h10]
  · exact ⟨["-i", "input" ++ getExtension fileName]
        ++ (if sm then ["-map_metadata", "-1"] else []),
      ["-y", "output" ++ oFmt.getD (getExtension fileName)],
      by simp [buildGrainArgs, List.append_assoc]⟩

/-- C5 witness: at a concrete .mp4 input with metadata stripping on, the grain
sequence has no bit-exact flag and exactly one noise-filter directive. -/
theorem c5_witness :
    ("-fflags" ∈ buildGrainArgs "input.mp4" "output.mp4" true → False)
    ∧ (buildGrainArgs "input.mp4" "output.mp4" true).count "-vf" = 1 :=
  ⟨fun hmem => (c5_grain_argument_sequence "clip.mp4" none true).1 hmem,
   (c5_grain_argument_sequence "clip.mp4" none true).2.2.2.1⟩

end Lumina
